import Mathlib

/-!
# Battery balancer: the pack state machine and the balancing predicate

Shallow embedding of `Software/Battery Balancer/Project Source/BatteryController.c`.

The body of the `while(1)` loop of `BatteryController_Task` is the function
`BatteryController_Task_step`; `batteryController_NeedsBalanced` is embedded
under its own name. The headers `State.h`, `CellStatus.h`, `Timer.h`, `SPI.h`,
`GPIO.h` and `I2C_Coms.h` are not part of the sources at hand: their constants
are fields of `Config`, their types and functions are modelled from the
specification and marked so.
-/

namespace BatteryBalancer

/-! ## Data model -/

/-- Modelled from the spec: the enumeration `state_t` of `State.h` (§3, Pack State). -/
inductive state_t where
  | CHARGE
  | BALANCE
  | CHARGE_BALANCE
  | WAIT
  | ERROR
  deriving DecidableEq, Repr

/-- Modelled from the spec: the type `timer_t` of `Timer.h` (§2 and §6, Timer Facility).
A timer is recorded by what the facility lets the task observe: whether it is
active, whether it has elapsed, and the duration it was last started with. -/
structure timer_t where
  active : Bool
  elapsed : Bool
  duration : Nat
  deriving DecidableEq, Repr

/-- Modelled from the spec: the type `cell_t` of `CellStatus.h` (§3, Cell).
The voltage is a signed number of millivolts; the width of the field is not
given by the sources at hand, so it is an unbounded integer here. -/
structure cell_t where
  voltage : Int
  balance : Bool
  relaxationTimer : timer_t
  deriving DecidableEq, Repr

/-- Constants and the pack-minimum query that `BatteryController.c` takes from
headers that are not part of the sources at hand. `CELLS_IN_SERIES` is the
length of the cell list. -/
structure Config where
  MAX_CELL_VOLTAGE : Int
  MAX_CELL_CRITICAL_VOLTAGE : Int
  START_BUTTON : Nat
  SWITCH_CHARGE_AND_BALANCE : Nat
  SWITCH_CHARGE : Nat
  DRV8860_IN_SERIES : Nat
  -- value returned by `CellStatus_MinCellVolt()` for the current `cells` array
  CellStatus_MinCellVolt : List cell_t → Int

/-- Values read by `I2C_GetPortInput` in one loop iteration. -/
structure Input where
  port0 : Nat
  port1 : Nat
  deriving DecidableEq, Repr

/-- Everything the loop body reads and writes: the pack state, the global
`cells`, the local `balanceDoneTimer`, and the bytes sent to the relay drivers.
Modelled from the spec: `GetState` and `SetState` of `State.h` read and
overwrite the field `state` (§3: one process-wide value, mutated only by the
state machine); `SPI_PushToQueue` and `SPI_SendTx` of `SPI.h` append the bytes
pushed to `relayTx`. -/
structure Sys where
  state : state_t
  cells : List cell_t
  balanceDoneTimer : timer_t
  relayTx : List Nat
  deriving DecidableEq, Repr

/-! ## Constants of `BatteryController.c` -/

/-- Source line 34. -/
def CHARGE_ON_VOLT_TOL : Int := 50

/-- Source line 38. -/
def BALANCE_MIN_VOLT_THRESH : Int := 3000

/-- Source line 44. -/
def BALANCE_ON_VOLT_TOL : Int := 25

/-- Source line 53. -/
def BALANCE_OFF_VOLT_TOL : Int := -50

/-- Source line 57. -/
def BALANCE_RELAXATION_TIME : Nat := 5000

/-! ## Timer facility -/

/-- Modelled from the spec: `Timer_Setup` of `Timer.h`; a fresh timer is
neither active nor elapsed. -/
def Timer_Setup : timer_t :=
  { active := false, elapsed := false, duration := 0 }

/-- Modelled from the spec: `Timer_Start` of `Timer.h`. -/
def Timer_Start (_t : timer_t) (d : Nat) : timer_t :=
  { active := true, elapsed := false, duration := d }

/-- Modelled from the spec: `Timer_Stop` of `Timer.h`. -/
def Timer_Stop (t : timer_t) : timer_t :=
  { t with active := false }

/-- Modelled from the spec: `Timer_IsActive` of `Timer.h`. -/
def Timer_IsActive (t : timer_t) : Bool := t.active

/-- Modelled from the spec: `Timer_HasElapsed` of `Timer.h`. -/
def Timer_HasElapsed (t : timer_t) : Bool := t.elapsed

/-! ## The balancing predicate (source lines 184-196) -/

/-- The function `batteryController_NeedsBalanced`; `minCellVolt` is the value
that `CellStatus_MinCellVolt()` returns at the call. -/
def batteryController_NeedsBalanced (minCellVolt : Int) (cell : cell_t) : Bool :=
  if Timer_HasElapsed cell.relaxationTimer && (cell.balance == false) then
    decide (cell.voltage - minCellVolt > BALANCE_OFF_VOLT_TOL)
  else
    false

/-! ## The loop body (source lines 88-180) -/

/-- The argument of the `SetState` call of source line 100:
`(state == CHARGE) ? SetState(WAIT) : SetState(BALANCE)`. -/
def softLimitTarget (state : state_t) : state_t :=
  if state = state_t.CHARGE then state_t.WAIT else state_t.BALANCE

/-- Body of the over-voltage loop for one cell (source lines 96-107): `state` is
the local copy read by `GetState()` at the top of the iteration, `g` the pack
state as `SetState` has left it so far. -/
def overVoltageCell (cfg : Config) (state : state_t) (g : state_t) (c : cell_t) : state_t :=
  let g1 := if c.voltage ≥ cfg.MAX_CELL_VOLTAGE then softLimitTarget state else g
  if c.voltage ≥ cfg.MAX_CELL_CRITICAL_VOLTAGE then state_t.ERROR else g1

/-- The over-voltage loop (source lines 93-108), cells visited by increasing index. -/
def overVoltageScan (cfg : Config) (state : state_t) (g : state_t) (cells : List cell_t) :
    state_t :=
  cells.foldl (overVoltageCell cfg state) g

/-- The balance loop (source lines 117-128). `done` holds the cells below the
loop index, already rewritten, `rest` the cells from the loop index on; the
array `cells` at that moment is `done ++ rest`. The result is the array after
the loop and the flag `doneBalancing`. -/
def balanceLoop (cfg : Config) (done : List cell_t) (rest : List cell_t)
    (doneBalancing : Bool) : List cell_t × Bool :=
  match rest with
  | [] => (done, doneBalancing)
  | c :: cs =>
    if batteryController_NeedsBalanced (cfg.CellStatus_MinCellVolt (done ++ c :: cs)) c then
      balanceLoop cfg (done ++ [{ c with balance := true }]) cs false
    else
      balanceLoop cfg (done ++ [{ c with balance := false }]) cs doneBalancing

/-- The block for the states BALANCE and CHARGE_BALANCE (source lines 115-142). -/
def balanceBlock (cfg : Config) (s : Sys) : Sys :=
  let r := balanceLoop cfg [] s.cells true
  let t :=
    if r.2 then
      (if !Timer_IsActive s.balanceDoneTimer then
        Timer_Start s.balanceDoneTimer BALANCE_RELAXATION_TIME
      else s.balanceDoneTimer)
    else Timer_Stop s.balanceDoneTimer
  { s with cells := r.1, balanceDoneTimer := t }

/-- The block for the state WAIT (source lines 148-179). The port value is
stored in a `uint8_t`. -/
def waitBlock (cfg : Config) (inp : Input) (s : Sys) : Sys :=
  let expanderInputPort0 := inp.port0 % 256
  let s1 := { s with relayTx := s.relayTx ++ List.replicate cfg.DRV8860_IN_SERIES 0xFF }
  if expanderInputPort0 &&& cfg.START_BUTTON ≠ 0 then
    if expanderInputPort0 &&& cfg.SWITCH_CHARGE_AND_BALANCE ≠ 0 then
      { s1 with state := state_t.CHARGE_BALANCE }
    else if expanderInputPort0 &&& cfg.SWITCH_CHARGE ≠ 0 then
      { s1 with state := state_t.CHARGE }
    else
      { s1 with state := state_t.BALANCE }
  else s1

/-- One iteration of the `while(1)` loop of `BatteryController_Task`. The three
`if` blocks test the local `state` read at the top, not the pack state that
`SetState` has written meanwhile. -/
def BatteryController_Task_step (cfg : Config) (inp : Input) (s : Sys) : Sys :=
  let state := s.state
  let s1 :=
    if state = state_t.CHARGE ∨ state = state_t.CHARGE_BALANCE then
      { s with state := overVoltageScan cfg state s.state s.cells }
    else s
  let s2 :=
    if state = state_t.BALANCE ∨ state = state_t.CHARGE_BALANCE then balanceBlock cfg s1
    else s1
  if state = state_t.WAIT then waitBlock cfg inp s2 else s2

/-- The function `batteryController_TimerCallback` (source lines 198-203), as a
function of the pack state. The task passes `NULL` to `Timer_Setup`, so no
timer is given this callback. -/
def batteryController_TimerCallback (g : state_t) : state_t :=
  if g = state_t.BALANCE then state_t.WAIT else state_t.CHARGE

/-! ## Runs of the task -/

/-- Modelled from the spec: the telemetry refresh and the timer facility are not
part of the sources at hand. Between two loop iterations the environment may
give every cell a new voltage reading and a new relaxation-timer state; the
balance flags are written by the task only (§5). Cells without a reading keep
their values. -/
def refreshCells : List cell_t → List (Int × timer_t) → List cell_t
  | [], _ => []
  | c :: cs, [] => c :: cs
  | c :: cs, r :: rs =>
    { c with voltage := r.1, relaxationTimer := r.2 } :: refreshCells cs rs

/-- What happens between the start of one observation and the next: either the
task runs one loop iteration, or the environment delivers new voltage readings
and timer states (time passing). -/
inductive Event where
  | task (inp : Input)
  | telemetry (readings : List (Int × timer_t)) (balanceDoneTimer : timer_t)

/-- Effect of one event. The pack state and the balance flags are changed by
task iterations only. -/
def applyEvent (cfg : Config) (s : Sys) : Event → Sys
  | Event.task inp => BatteryController_Task_step cfg inp s
  | Event.telemetry readings t =>
    { s with cells := refreshCells s.cells readings, balanceDoneTimer := t }

/-- A run: the events applied in order. -/
def run (cfg : Config) (evs : List Event) (s : Sys) : Sys :=
  evs.foldl (applyEvent cfg) s

/-! ## Concrete packs used to evaluate the code -/

/-- Modelled from the spec: `CellStatus_MinCellVolt` of `CellStatus.h`, the
minimum of the cell voltages of the pack (§4.2); 0 for an empty pack. -/
def packMinimum : List cell_t → Int
  | [] => 0
  | c :: cs => cs.foldl (fun m d => min m d.voltage) c.voltage

/-- A configuration with the given two voltage limits, the start button on bit 0,
the charge-and-balance switch on bit 1, the charge switch on bit 2, one relay
driver, and the pack minimum computed from the cell array. -/
def sampleConfig (maxV critV : Int) : Config :=
  { MAX_CELL_VOLTAGE := maxV
    MAX_CELL_CRITICAL_VOLTAGE := critV
    START_BUTTON := 1
    SWITCH_CHARGE_AND_BALANCE := 2
    SWITCH_CHARGE := 4
    DRV8860_IN_SERIES := 1
    CellStatus_MinCellVolt := packMinimum }

/-- A timer that is not running and reports elapsed. -/
def elapsedTimer : timer_t := { active := false, elapsed := true, duration := 5000 }

/-- A timer that is running and has not elapsed. -/
def runningTimer : timer_t := { active := true, elapsed := false, duration := 5000 }

/-- A resting cell (balance flag FALSE, relaxation timer elapsed) at voltage `v`. -/
def restingCell (v : Int) : cell_t :=
  { voltage := v, balance := false, relaxationTimer := elapsedTimer }

/-- A pack of resting cells with the given voltages, in the given pack state. -/
def samplePack (st : state_t) (vs : List Int) : Sys :=
  { state := st, cells := vs.map restingCell, balanceDoneTimer := Timer_Setup, relayTx := [] }

/-- A cell that is being balanced (balance flag TRUE, relaxation timer elapsed) at
voltage `v`. -/
def balancingCell (v : Int) : cell_t :=
  { voltage := v, balance := true, relaxationTimer := elapsedTimer }

/-- A cell that is not balancing and whose relaxation timer has not elapsed. -/
def relaxingCell (v : Int) : cell_t :=
  { voltage := v, balance := false, relaxationTimer := runningTimer }

/-- A pack with the given cells in the given pack state, balance-done timer just
set up. -/
def packOf (st : state_t) (cells : List cell_t) : Sys :=
  { state := st, cells := cells, balanceDoneTimer := Timer_Setup, relayTx := [] }

/-- The balance-done timer as the timer facility reports it once the duration it
was started with has passed. -/
def balanceDoneElapsed : timer_t :=
  { active := true, elapsed := true, duration := BALANCE_RELAXATION_TIME }

/-! ## Vocabulary for statements on the balance loop -/

/-- The pack-minimum query is a function of the cell voltages: two arrays with the
same voltages get the same minimum. -/
def MinFromVoltages (cfg : Config) : Prop :=
  ∀ xs ys : List cell_t, xs.map cell_t.voltage = ys.map cell_t.voltage →
    cfg.CellStatus_MinCellVolt xs = cfg.CellStatus_MinCellVolt ys

/-- What one pass of the balance loop body does to a cell `c`: the cell written
back, `d`, is `c` with its balance flag replaced by the value of
`batteryController_NeedsBalanced` on `c`, the pack minimum being taken on the
array `arr` of that moment, which holds `c` and has the voltages `vs`. -/
def BalanceWrite (cfg : Config) (vs : List Int) (c d : cell_t) : Prop :=
  ∃ arr : List cell_t, c ∈ arr ∧ arr.map cell_t.voltage = vs ∧
    d = { c with
      balance := batteryController_NeedsBalanced (cfg.CellStatus_MinCellVolt arr) c }

/-! ## Lemmas on the loop body -/

section Lemmas

open state_t

theorem overVoltageScan_cons (cfg : Config) (state g : state_t) (c : cell_t)
    (cs : List cell_t) :
    overVoltageScan cfg state g (c :: cs)
      = overVoltageScan cfg state (overVoltageCell cfg state g c) cs := rfl

/-- With no cell at the critical limit, the scan ends in the soft-limit target as
soon as one cell is at the soft limit, or the scan already started from it. -/
theorem overVoltageScan_soft (cfg : Config) (state : state_t) :
    ∀ (cells : List cell_t) (g : state_t),
      (∀ c ∈ cells, c.voltage < cfg.MAX_CELL_CRITICAL_VOLTAGE) →
      ((∃ c ∈ cells, c.voltage ≥ cfg.MAX_CELL_VOLTAGE) ∨ g = softLimitTarget state) →
      overVoltageScan cfg state g cells = softLimitTarget state := by
  intro cells
  induction cells with
  | nil =>
    intro g _ h
    rcases h with ⟨c, hc, _⟩ | h
    · cases hc
    · exact h
  | cons c cs ih =>
    intro g hcrit h
    rw [overVoltageScan_cons]
    have hc : ¬ c.voltage ≥ cfg.MAX_CELL_CRITICAL_VOLTAGE :=
      not_le.mpr (hcrit c (List.mem_cons_self c cs))
    apply ih _ (fun d hd => hcrit d (List.mem_cons_of_mem c hd))
    by_cases hm : c.voltage ≥ cfg.MAX_CELL_VOLTAGE
    · right
      simp [overVoltageCell, hc, hm]
    · rcases h with ⟨d, hd, hdv⟩ | h
      · rcases List.mem_cons.mp hd with rfl | hd
        · exact absurd hdv hm
        · exact Or.inl ⟨d, hd, hdv⟩
      · right
        simp [overVoltageCell, hc, hm, h]

/-- Whatever the cells hold, the scan ends in the state it started from, in the
soft-limit target, or in ERROR. -/
theorem overVoltageScan_mem (cfg : Config) (state : state_t) (P : state_t → Prop)
    (hT : P (softLimitTarget state)) (hE : P ERROR) :
    ∀ (cells : List cell_t) (g : state_t), P g → P (overVoltageScan cfg state g cells) := by
  intro cells
  induction cells with
  | nil => intro g hg; exact hg
  | cons c cs ih =>
    intro g hg
    rw [overVoltageScan_cons]
    apply ih
    unfold overVoltageCell
    by_cases hc : c.voltage ≥ cfg.MAX_CELL_CRITICAL_VOLTAGE
    · simp [hc, hE]
    · by_cases hm : c.voltage ≥ cfg.MAX_CELL_VOLTAGE
      · simp [hc, hm, hT]
      · simp [hc, hm, hg]

theorem balanceBlock_state (cfg : Config) (s : Sys) : (balanceBlock cfg s).state = s.state := rfl

theorem waitBlock_cells (cfg : Config) (inp : Input) (s : Sys) :
    (waitBlock cfg inp s).cells = s.cells := by
  unfold waitBlock
  dsimp only
  split_ifs <;> rfl

theorem step_of_CHARGE (cfg : Config) (inp : Input) (s : Sys) (h : s.state = CHARGE) :
    BatteryController_Task_step cfg inp s
      = { s with state := overVoltageScan cfg CHARGE CHARGE s.cells } := by
  simp [BatteryController_Task_step, h]

theorem step_of_CHARGE_BALANCE (cfg : Config) (inp : Input) (s : Sys)
    (h : s.state = CHARGE_BALANCE) :
    BatteryController_Task_step cfg inp s
      = balanceBlock cfg
          { s with state := overVoltageScan cfg CHARGE_BALANCE CHARGE_BALANCE s.cells } := by
  simp [BatteryController_Task_step, h]

theorem step_of_BALANCE (cfg : Config) (inp : Input) (s : Sys) (h : s.state = BALANCE) :
    BatteryController_Task_step cfg inp s = balanceBlock cfg s := by
  simp [BatteryController_Task_step, h]

theorem step_of_WAIT (cfg : Config) (inp : Input) (s : Sys) (h : s.state = WAIT) :
    BatteryController_Task_step cfg inp s = waitBlock cfg inp s := by
  simp [BatteryController_Task_step, h]

theorem step_of_ERROR (cfg : Config) (inp : Input) (s : Sys) (h : s.state = ERROR) :
    BatteryController_Task_step cfg inp s = s := by
  simp [BatteryController_Task_step, h]

theorem run_nil (cfg : Config) (s : Sys) : run cfg [] s = s := rfl

theorem run_cons (cfg : Config) (e : Event) (evs : List Event) (s : Sys) :
    run cfg (e :: evs) s = run cfg evs (applyEvent cfg s e) := rfl

/-- A property kept by every event holds at the end of every run. -/
theorem run_invariant (cfg : Config) (I : Sys → Prop)
    (hstep : ∀ (s : Sys) (e : Event), I s → I (applyEvent cfg s e)) :
    ∀ (evs : List Event) (s : Sys), I s → I (run cfg evs s) := by
  intro evs
  induction evs with
  | nil => intro s hs; exact hs
  | cons e evs ih =>
    intro s hs
    rw [run_cons]
    exact ih _ (hstep s e hs)

theorem refreshCells_balance_false :
    ∀ (cells : List cell_t) (rs : List (Int × timer_t)),
      (∀ c ∈ cells, c.balance = false) → ∀ c ∈ refreshCells cells rs, c.balance = false := by
  intro cells
  induction cells with
  | nil => intro rs _ c hc; cases rs <;> simp [refreshCells] at hc
  | cons d ds ih =>
    intro rs h c hc
    cases rs with
    | nil => exact h c (by simpa [refreshCells] using hc)
    | cons r rs =>
      simp only [refreshCells, List.mem_cons] at hc
      rcases hc with rfl | hc
      · exact h d (List.mem_cons_self d ds)
      · exact ih rs (fun e he => h e (List.mem_cons_of_mem d he)) c hc

/-- A step started in BALANCE leaves the pack state BALANCE. -/
theorem step_state_of_BALANCE (cfg : Config) (inp : Input) (s : Sys) (h : s.state = BALANCE) :
    (BatteryController_Task_step cfg inp s).state = BALANCE := by
  rw [step_of_BALANCE cfg inp s h, balanceBlock_state, h]

/-- A step started in CHARGE_BALANCE ends in CHARGE_BALANCE, BALANCE or ERROR. -/
theorem step_state_of_CHARGE_BALANCE (cfg : Config) (inp : Input) (s : Sys)
    (h : s.state = CHARGE_BALANCE) :
    (BatteryController_Task_step cfg inp s).state = CHARGE_BALANCE ∨
    (BatteryController_Task_step cfg inp s).state = BALANCE ∨
    (BatteryController_Task_step cfg inp s).state = ERROR := by
  rw [step_of_CHARGE_BALANCE cfg inp s h, balanceBlock_state]
  exact overVoltageScan_mem cfg CHARGE_BALANCE
    (fun g => g = CHARGE_BALANCE ∨ g = BALANCE ∨ g = ERROR)
    (Or.inr (Or.inl rfl)) (Or.inr (Or.inr rfl)) s.cells CHARGE_BALANCE (Or.inl rfl)

/-- An event leaves BALANCE at BALANCE and ERROR at ERROR, and takes
CHARGE_BALANCE to CHARGE_BALANCE, BALANCE or ERROR. -/
theorem applyEvent_state_balancing (cfg : Config) (s : Sys) (e : Event) :
    (s.state = BALANCE → (applyEvent cfg s e).state = BALANCE) ∧
    (s.state = ERROR → (applyEvent cfg s e).state = ERROR) ∧
    (s.state = CHARGE_BALANCE →
      (applyEvent cfg s e).state = CHARGE_BALANCE ∨ (applyEvent cfg s e).state = BALANCE ∨
      (applyEvent cfg s e).state = ERROR) := by
  cases e with
  | task inp =>
    refine ⟨fun h => step_state_of_BALANCE cfg inp s h, fun h => ?_,
      fun h => step_state_of_CHARGE_BALANCE cfg inp s h⟩
    show (BatteryController_Task_step cfg inp s).state = ERROR
    rw [step_of_ERROR cfg inp s h, h]
  | telemetry rs t =>
    exact ⟨fun h => h, fun h => h, fun h => Or.inl h⟩

theorem run_state_of_BALANCE (cfg : Config) (evs : List Event) (s : Sys)
    (h : s.state = BALANCE) : (run cfg evs s).state = BALANCE :=
  run_invariant cfg (fun x => x.state = BALANCE)
    (fun x e hx => (applyEvent_state_balancing cfg x e).1 hx) evs s h

theorem run_state_of_ERROR (cfg : Config) (evs : List Event) (s : Sys)
    (h : s.state = ERROR) : (run cfg evs s).state = ERROR :=
  run_invariant cfg (fun x => x.state = ERROR)
    (fun x e hx => (applyEvent_state_balancing cfg x e).2.1 hx) evs s h

theorem run_state_of_CHARGE_BALANCE (cfg : Config) (evs : List Event) (s : Sys)
    (h : s.state = CHARGE_BALANCE) :
    (run cfg evs s).state = CHARGE_BALANCE ∨ (run cfg evs s).state = BALANCE ∨
    (run cfg evs s).state = ERROR := by
  refine run_invariant cfg
    (fun x => x.state = CHARGE_BALANCE ∨ x.state = BALANCE ∨ x.state = ERROR) ?_ evs s
    (Or.inl h)
  intro x e hx
  rcases hx with hx | hx | hx
  · exact (applyEvent_state_balancing cfg x e).2.2 hx
  · exact Or.inr (Or.inl ((applyEvent_state_balancing cfg x e).1 hx))
  · exact Or.inr (Or.inr ((applyEvent_state_balancing cfg x e).2.1 hx))

/-- In WAIT and in CHARGE every balance flag is FALSE: this property is kept by
every event. -/
theorem flags_clear_outside_balancing_step (cfg : Config) (s : Sys) (e : Event)
    (hI : (s.state = WAIT ∨ s.state = CHARGE) → ∀ c ∈ s.cells, c.balance = false) :
    ((applyEvent cfg s e).state = WAIT ∨ (applyEvent cfg s e).state = CHARGE) →
      ∀ c ∈ (applyEvent cfg s e).cells, c.balance = false := by
  cases e with
  | telemetry rs t =>
    intro h
    exact refreshCells_balance_false s.cells rs (hI h)
  | task inp =>
    show ((BatteryController_Task_step cfg inp s).state = WAIT ∨
        (BatteryController_Task_step cfg inp s).state = CHARGE) →
      ∀ c ∈ (BatteryController_Task_step cfg inp s).cells, c.balance = false
    cases hs : s.state with
    | CHARGE =>
      rw [step_of_CHARGE cfg inp s hs]
      intro _
      exact hI (Or.inr hs)
    | BALANCE =>
      intro h
      rw [step_state_of_BALANCE cfg inp s hs] at h
      rcases h with h | h <;> cases h
    | CHARGE_BALANCE =>
      intro h
      rcases step_state_of_CHARGE_BALANCE cfg inp s hs with h1 | h1 | h1 <;>
        rw [h1] at h <;> rcases h with h | h <;> cases h
    | WAIT =>
      rw [step_of_WAIT cfg inp s hs, waitBlock_cells]
      intro _
      exact hI (Or.inl hs)
    | ERROR =>
      rw [step_of_ERROR cfg inp s hs]
      exact hI

/-- The balance loop rewrites the cells from the loop index on, one by one, and
`doneBalancing` stays TRUE exactly when every flag it wrote is FALSE. -/
theorem balanceLoop_spec (cfg : Config) :
    ∀ (rest done : List cell_t) (d : Bool),
      ∃ w : List cell_t,
        balanceLoop cfg done rest d = (done ++ w, d && w.all (fun c => !c.balance)) ∧
        List.Forall₂ (BalanceWrite cfg ((done ++ rest).map cell_t.voltage)) rest w := by
  intro rest
  induction rest with
  | nil =>
    intro done d
    exact ⟨[], by simp [balanceLoop], List.Forall₂.nil⟩
  | cons c cs ih =>
    intro done d
    by_cases hb :
        batteryController_NeedsBalanced (cfg.CellStatus_MinCellVolt (done ++ c :: cs)) c = true
    · obtain ⟨w, hw, hf⟩ := ih (done ++ [{ c with balance := true }]) false
      refine ⟨{ c with balance := true } :: w, ?_, ?_⟩
      · rw [balanceLoop, if_pos hb, hw]
        simp
      · refine List.Forall₂.cons ⟨done ++ c :: cs, by simp, rfl, by rw [hb]⟩ ?_
        have hv : ((done ++ [{ c with balance := true }]) ++ cs).map cell_t.voltage
            = (done ++ c :: cs).map cell_t.voltage := by simp
        rw [hv] at hf
        exact hf
    · obtain ⟨w, hw, hf⟩ := ih (done ++ [{ c with balance := false }]) d
      refine ⟨{ c with balance := false } :: w, ?_, ?_⟩
      · rw [balanceLoop, if_neg hb, hw]
        simp
      · have hb2 : batteryController_NeedsBalanced
            (cfg.CellStatus_MinCellVolt (done ++ c :: cs)) c = false := by
          simpa using hb
        refine List.Forall₂.cons ⟨done ++ c :: cs, by simp, rfl, by rw [hb2]⟩ ?_
        have hv : ((done ++ [{ c with balance := false }]) ++ cs).map cell_t.voltage
            = (done ++ c :: cs).map cell_t.voltage := by simp
        rw [hv] at hf
        exact hf

/-- The balance block writes every cell once, and its `doneBalancing` is TRUE
exactly when all flags are FALSE afterwards. -/
theorem balanceBlock_writes (cfg : Config) (s : Sys) :
    List.Forall₂ (BalanceWrite cfg (s.cells.map cell_t.voltage)) s.cells
        (balanceBlock cfg s).cells ∧
    (balanceLoop cfg [] s.cells true).2
      = (balanceBlock cfg s).cells.all (fun c => !c.balance) := by
  obtain ⟨w, hw, hf⟩ := balanceLoop_spec cfg s.cells [] true
  have hc : (balanceBlock cfg s).cells = w := by
    show (balanceLoop cfg [] s.cells true).1 = w
    rw [hw]
    simp
  rw [hc, hw]
  exact ⟨by simpa using hf, by simp⟩

/-- The timer decision of the balance block (source lines 129-142). -/
theorem balanceBlock_timer (cfg : Config) (s : Sys) :
    (balanceBlock cfg s).balanceDoneTimer
      = if (balanceBlock cfg s).cells.all (fun c => !c.balance) then
          (if !Timer_IsActive s.balanceDoneTimer then
            Timer_Start s.balanceDoneTimer BALANCE_RELAXATION_TIME
          else s.balanceDoneTimer)
        else Timer_Stop s.balanceDoneTimer := by
  rw [← (balanceBlock_writes cfg s).2]
  rfl

/-- In BALANCE and CHARGE_BALANCE the step leaves the cells and the balance-done
timer as the balance block leaves them. -/
theorem step_balancing (cfg : Config) (inp : Input) (s : Sys)
    (hs : s.state = BALANCE ∨ s.state = CHARGE_BALANCE) :
    (BatteryController_Task_step cfg inp s).cells = (balanceBlock cfg s).cells ∧
    (BatteryController_Task_step cfg inp s).balanceDoneTimer
      = (balanceBlock cfg s).balanceDoneTimer := by
  rcases hs with h | h
  · rw [step_of_BALANCE cfg inp s h]
    exact ⟨rfl, rfl⟩
  · rw [step_of_CHARGE_BALANCE cfg inp s h]
    exact ⟨rfl, rfl⟩

theorem forall₂_eq_map {f : cell_t → cell_t} :
    ∀ {l w : List cell_t}, List.Forall₂ (fun c d => d = f c) l w → w = l.map f := by
  intro l w h
  induction h with
  | nil => rfl
  | cons h _ ih => rw [List.map_cons, h, ih]

/-- When the pack minimum is a function of the voltages, the balance block maps
the predicate, taken with the minimum of the array before the block, over the
cells. -/
theorem balanceBlock_cells_eq_map (cfg : Config) (s : Sys) (hmin : MinFromVoltages cfg) :
    (balanceBlock cfg s).cells
      = s.cells.map (fun c => { c with
          balance :=
            batteryController_NeedsBalanced (cfg.CellStatus_MinCellVolt s.cells) c }) := by
  apply forall₂_eq_map
  refine (balanceBlock_writes cfg s).1.imp ?_
  rintro c d ⟨arr, _, hv, hd⟩
  rw [hd, hmin arr s.cells hv]

/-! ### The pack minimum -/

theorem foldl_min_congr :
    ∀ (cs ds : List cell_t) (a : Int), cs.map cell_t.voltage = ds.map cell_t.voltage →
      cs.foldl (fun m d => min m d.voltage) a = ds.foldl (fun m d => min m d.voltage) a := by
  intro cs
  induction cs with
  | nil =>
    intro ds a h
    cases ds with
    | nil => rfl
    | cons d ds => simp at h
  | cons c cs ih =>
    intro ds a h
    cases ds with
    | nil => simp at h
    | cons d ds =>
      simp only [List.map_cons, List.cons.injEq] at h
      simp only [List.foldl_cons]
      rw [h.1]
      exact ih ds _ h.2

theorem packMinimum_congr (xs ys : List cell_t)
    (h : xs.map cell_t.voltage = ys.map cell_t.voltage) : packMinimum xs = packMinimum ys := by
  cases xs with
  | nil =>
    cases ys with
    | nil => rfl
    | cons d ds => simp at h
  | cons c cs =>
    cases ys with
    | nil => simp at h
    | cons d ds =>
      simp only [List.map_cons, List.cons.injEq] at h
      simp only [packMinimum]
      rw [h.1]
      exact foldl_min_congr cs ds _ h.2

/-- The sample configurations take the pack minimum from the voltages. -/
theorem sampleConfig_minFromVoltages (maxV critV : Int) :
    MinFromVoltages (sampleConfig maxV critV) :=
  fun xs ys h => packMinimum_congr xs ys h

theorem foldl_min_le_init :
    ∀ (cs : List cell_t) (a : Int), cs.foldl (fun m d => min m d.voltage) a ≤ a := by
  intro cs
  induction cs with
  | nil => intro a; exact le_refl a
  | cons c cs ih =>
    intro a
    simp only [List.foldl_cons]
    exact le_trans (ih _) (min_le_left a c.voltage)

theorem foldl_min_le_mem :
    ∀ (cs : List cell_t) (a : Int) (c : cell_t), c ∈ cs →
      cs.foldl (fun m d => min m d.voltage) a ≤ c.voltage := by
  intro cs
  induction cs with
  | nil => intro a c hc; cases hc
  | cons d ds ih =>
    intro a c hc
    simp only [List.foldl_cons]
    rcases List.mem_cons.mp hc with rfl | hc
    · exact le_trans (foldl_min_le_init ds _) (min_le_right a c.voltage)
    · exact ih _ c hc

/-- The pack minimum is at most the voltage of every cell of the pack. -/
theorem packMinimum_le (cells : List cell_t) (c : cell_t) (hc : c ∈ cells) :
    packMinimum cells ≤ c.voltage := by
  cases cells with
  | nil => cases hc
  | cons d ds =>
    simp only [packMinimum]
    rcases List.mem_cons.mp hc with rfl | hc
    · exact foldl_min_le_init ds _
    · exact foldl_min_le_mem ds _ c hc

/-! ### The over-voltage scan, cell by cell -/

theorem overVoltageScan_append (cfg : Config) (state g : state_t) (xs ys : List cell_t) :
    overVoltageScan cfg state g (xs ++ ys)
      = overVoltageScan cfg state (overVoltageScan cfg state g xs) ys := by
  simp [overVoltageScan, List.foldl_append]

/-- Cells below both limits leave the pack state as the scan found it. -/
theorem overVoltageScan_below (cfg : Config) (state : state_t) :
    ∀ (cells : List cell_t) (g : state_t),
      (∀ c ∈ cells, c.voltage < cfg.MAX_CELL_VOLTAGE) →
      (∀ c ∈ cells, c.voltage < cfg.MAX_CELL_CRITICAL_VOLTAGE) →
      overVoltageScan cfg state g cells = g := by
  intro cells
  induction cells with
  | nil => intro g _ _; rfl
  | cons c cs ih =>
    intro g hm hc
    rw [overVoltageScan_cons]
    have h1 : ¬ c.voltage ≥ cfg.MAX_CELL_VOLTAGE :=
      not_le.mpr (hm c (List.mem_cons_self c cs))
    have h2 : ¬ c.voltage ≥ cfg.MAX_CELL_CRITICAL_VOLTAGE :=
      not_le.mpr (hc c (List.mem_cons_self c cs))
    have h3 : overVoltageCell cfg state g c = g := by
      simp [overVoltageCell, h1, h2]
    rw [h3]
    exact ih g (fun d hd => hm d (List.mem_cons_of_mem c hd))
      (fun d hd => hc d (List.mem_cons_of_mem c hd))

/-- The pack state after a step started in CHARGE or CHARGE_BALANCE is the result
of the over-voltage scan. -/
theorem step_state_charging (cfg : Config) (inp : Input) (s : Sys)
    (hs : s.state = CHARGE ∨ s.state = CHARGE_BALANCE) :
    (BatteryController_Task_step cfg inp s).state
      = overVoltageScan cfg s.state s.state s.cells := by
  rcases hs with h | h
  · rw [step_of_CHARGE cfg inp s h, h]
  · rw [step_of_CHARGE_BALANCE cfg inp s h, balanceBlock_state, h]

/-! ### What a step leaves untouched -/

theorem balanceWrite_timer_voltage (cfg : Config) (vs : List Int) :
    ∀ {l w : List cell_t}, List.Forall₂ (BalanceWrite cfg vs) l w →
      w.map cell_t.relaxationTimer = l.map cell_t.relaxationTimer ∧
      w.map cell_t.voltage = l.map cell_t.voltage := by
  intro l w h
  induction h with
  | nil => exact ⟨rfl, rfl⟩
  | cons h _ ih =>
    obtain ⟨arr, _, _, hd⟩ := h
    simp only [List.map_cons, ih.1, ih.2, hd, and_self]

/-- No step writes a relaxation timer or a voltage. -/
theorem step_timer_voltage (cfg : Config) (inp : Input) (s : Sys) :
    (BatteryController_Task_step cfg inp s).cells.map cell_t.relaxationTimer
      = s.cells.map cell_t.relaxationTimer ∧
    (BatteryController_Task_step cfg inp s).cells.map cell_t.voltage
      = s.cells.map cell_t.voltage := by
  cases hs : s.state with
  | CHARGE => rw [step_of_CHARGE cfg inp s hs]; exact ⟨rfl, rfl⟩
  | BALANCE =>
    rw [(step_balancing cfg inp s (Or.inl hs)).1]
    exact balanceWrite_timer_voltage cfg _ (balanceBlock_writes cfg s).1
  | CHARGE_BALANCE =>
    rw [(step_balancing cfg inp s (Or.inr hs)).1]
    exact balanceWrite_timer_voltage cfg _ (balanceBlock_writes cfg s).1
  | WAIT => rw [step_of_WAIT cfg inp s hs, waitBlock_cells]; exact ⟨rfl, rfl⟩
  | ERROR => rw [step_of_ERROR cfg inp s hs]; exact ⟨rfl, rfl⟩

/-! ### Cell by cell -/

theorem forall₂_getElem? {R : cell_t → cell_t → Prop} :
    ∀ {l w : List cell_t}, List.Forall₂ R l w →
      ∀ (i : Nat) (c : cell_t), l[i]? = some c → ∃ d, w[i]? = some d ∧ R c d := by
  intro l w h
  induction h with
  | nil => intro i c hc; simp at hc
  | cons h _ ih =>
    intro i c hc
    cases i with
    | zero =>
      simp only [List.getElem?_cons_zero, Option.some.injEq] at hc
      subst hc
      exact ⟨_, by simp, h⟩
    | succ i =>
      simp only [List.getElem?_cons_succ] at hc
      obtain ⟨d, hd, hr⟩ := ih i c hc
      exact ⟨d, by simpa using hd, hr⟩

theorem forall₂_mem_left {R : cell_t → cell_t → Prop} :
    ∀ {l w : List cell_t}, List.Forall₂ R l w →
      List.Forall₂ (fun c d => c ∈ l ∧ R c d) l w := by
  intro l w h
  induction h with
  | nil => exact List.Forall₂.nil
  | cons h _ ih =>
    exact List.Forall₂.cons ⟨List.mem_cons_self _ _, h⟩
      (ih.imp (fun c d hcd => ⟨List.mem_cons_of_mem _ hcd.1, hcd.2⟩))

/-- The gate of the predicate: a cell that is balancing is not selected. -/
theorem needsBalanced_of_balancing (m : Int) (c : cell_t) (h : c.balance = true) :
    batteryController_NeedsBalanced m c = false := by
  simp [batteryController_NeedsBalanced, h]

/-- A resting cell with elapsed relaxation timer is selected as soon as the value
taken for the pack minimum is not above its voltage. -/
theorem needsBalanced_of_min_le (m : Int) (c : cell_t) (hb : c.balance = false)
    (ht : Timer_HasElapsed c.relaxationTimer = true) (hm : m ≤ c.voltage) :
    batteryController_NeedsBalanced m c = true := by
  simp only [batteryController_NeedsBalanced, ht, hb, beq_self_eq_true, Bool.and_self,
    if_true, decide_eq_true_eq, BALANCE_OFF_VOLT_TOL]
  omega

/-- In BALANCE and CHARGE_BALANCE a step clears every balance flag that was set. -/
theorem step_clears_set_flags (cfg : Config) (inp : Input) (s : Sys)
    (hs : s.state = BALANCE ∨ s.state = CHARGE_BALANCE) :
    ∀ (i : Nat) (c : cell_t), s.cells[i]? = some c → c.balance = true →
      ∃ d, (BatteryController_Task_step cfg inp s).cells[i]? = some d ∧
        d.balance = false := by
  intro i c hi hb
  rw [(step_balancing cfg inp s hs).1]
  obtain ⟨d, hd, arr, _, _, hw⟩ := forall₂_getElem? (balanceBlock_writes cfg s).1 i c hi
  refine ⟨d, hd, ?_⟩
  rw [hw]
  exact needsBalanced_of_balancing _ c hb

/-- The scan is decided by the last cell at the soft limit: the cells before it
do not matter, the cells after it change nothing. -/
theorem overVoltageScan_last (cfg : Config) (state g : state_t)
    (hle : cfg.MAX_CELL_VOLTAGE ≤ cfg.MAX_CELL_CRITICAL_VOLTAGE)
    (pre post : List cell_t) (c : cell_t) (hc : c.voltage ≥ cfg.MAX_CELL_VOLTAGE)
    (hpost : ∀ d ∈ post, d.voltage < cfg.MAX_CELL_VOLTAGE) :
    overVoltageScan cfg state g (pre ++ c :: post)
      = if c.voltage ≥ cfg.MAX_CELL_CRITICAL_VOLTAGE then ERROR
        else softLimitTarget state := by
  rw [overVoltageScan_append, overVoltageScan_cons,
    overVoltageScan_below cfg state post _ hpost (fun d hd => lt_of_lt_of_le (hpost d hd) hle)]
  simp [overVoltageCell, hc]

/-- From CHARGE the scan ends in CHARGE, WAIT or ERROR. -/
theorem step_state_of_CHARGE (cfg : Config) (inp : Input) (s : Sys) (h : s.state = CHARGE) :
    (BatteryController_Task_step cfg inp s).state = CHARGE ∨
    (BatteryController_Task_step cfg inp s).state = WAIT ∨
    (BatteryController_Task_step cfg inp s).state = ERROR := by
  rw [step_of_CHARGE cfg inp s h]
  exact overVoltageScan_mem cfg CHARGE (fun g => g = CHARGE ∨ g = WAIT ∨ g = ERROR)
    (Or.inr (Or.inl rfl)) (Or.inr (Or.inr rfl)) s.cells CHARGE (Or.inl rfl)

/-- From WAIT the step ends in WAIT, CHARGE_BALANCE, CHARGE or BALANCE, and in
WAIT when the start bit is clear. -/
theorem waitBlock_state (cfg : Config) (inp : Input) (s : Sys) :
    ((waitBlock cfg inp s).state = s.state ∨ (waitBlock cfg inp s).state = CHARGE_BALANCE ∨
      (waitBlock cfg inp s).state = CHARGE ∨ (waitBlock cfg inp s).state = BALANCE) ∧
    ((inp.port0 % 256) &&& cfg.START_BUTTON = 0 → (waitBlock cfg inp s).state = s.state) := by
  unfold waitBlock
  dsimp only
  constructor
  · split_ifs
    · exact Or.inr (Or.inl rfl)
    · exact Or.inr (Or.inr (Or.inl rfl))
    · exact Or.inr (Or.inr (Or.inr rfl))
    · exact Or.inl rfl
  · intro h
    rw [if_neg (not_not.mpr h)]

/-- Outside WAIT the step does not depend on the port inputs. -/
theorem step_input_irrelevant (cfg : Config) (inp inp2 : Input) (s : Sys)
    (h : s.state ≠ WAIT) :
    BatteryController_Task_step cfg inp2 s = BatteryController_Task_step cfg inp s := by
  simp [BatteryController_Task_step, h]

end Lemmas

/-! ## The over-voltage scan -/

section Claims

open state_t

/-- C1 (the code evaluated where the claim fails). Cells [3950, 4000, 3990] mV,
state CHARGE, MAX_CELL_VOLTAGE = 3980, MAX_CELL_CRITICAL_VOLTAGE = 4000: the
cell at index 1 is at the critical limit, yet the state after the step is WAIT,
because the cell at index 2 is at the soft limit and its `SetState(WAIT)` comes
after the `SetState(ERROR)` of index 1. -/
theorem C1_critical_overwritten_by_later_cell :
    (∃ c ∈ (samplePack CHARGE [3950, 4000, 3990]).cells,
        c.voltage ≥ (sampleConfig 3980 4000).MAX_CELL_CRITICAL_VOLTAGE) ∧
    (BatteryController_Task_step (sampleConfig 3980 4000) ⟨0, 0⟩
        (samplePack CHARGE [3950, 4000, 3990])).state = WAIT := by
  decide

/-- C2. Soft limit: if no cell is at or above MAX_CELL_CRITICAL_VOLTAGE and at
least one cell is at or above MAX_CELL_VOLTAGE, one step started in CHARGE ends
in WAIT and one step started in CHARGE_BALANCE ends in BALANCE. -/
theorem C2_soft_limit (cfg : Config) (inp : Input) (s : Sys)
    (hcrit : ∀ c ∈ s.cells, c.voltage < cfg.MAX_CELL_CRITICAL_VOLTAGE)
    (hsoft : ∃ c ∈ s.cells, c.voltage ≥ cfg.MAX_CELL_VOLTAGE) :
    (s.state = CHARGE → (BatteryController_Task_step cfg inp s).state = WAIT) ∧
    (s.state = CHARGE_BALANCE → (BatteryController_Task_step cfg inp s).state = BALANCE) := by
  constructor
  · intro h
    rw [step_of_CHARGE cfg inp s h]
    exact overVoltageScan_soft cfg CHARGE s.cells CHARGE hcrit (Or.inl hsoft)
  · intro h
    rw [step_of_CHARGE_BALANCE cfg inp s h, balanceBlock_state]
    exact overVoltageScan_soft cfg CHARGE_BALANCE s.cells CHARGE_BALANCE hcrit (Or.inl hsoft)

/-- C2 at the scenario of the specification: cells [3950, 4000, 3990] mV, state
CHARGE, MAX_CELL_VOLTAGE = 4000, critical limit 4200, gives WAIT. -/
theorem C2_soft_limit_witness :
    (∀ c ∈ (samplePack CHARGE [3950, 4000, 3990]).cells,
        c.voltage < (sampleConfig 4000 4200).MAX_CELL_CRITICAL_VOLTAGE) ∧
    (∃ c ∈ (samplePack CHARGE [3950, 4000, 3990]).cells,
        c.voltage ≥ (sampleConfig 4000 4200).MAX_CELL_VOLTAGE) ∧
    (BatteryController_Task_step (sampleConfig 4000 4200) ⟨0, 0⟩
        (samplePack CHARGE [3950, 4000, 3990])).state = WAIT :=
  ⟨by decide, by decide,
    (C2_soft_limit (sampleConfig 4000 4200) ⟨0, 0⟩ (samplePack CHARGE [3950, 4000, 3990])
      (by decide) (by decide)).1 rfl⟩

/-! ## Operator start -/

/-- C3. Operator start from WAIT: with the START_BUTTON bit set in the port-0
byte, the state after the step is CHARGE_BALANCE if the SWITCH_CHARGE_AND_BALANCE
bit is set, CHARGE if that bit is clear and SWITCH_CHARGE is set, and BALANCE if
both are clear, for every other input bit and every cell array. -/
theorem C3_operator_start (cfg : Config) (inp : Input) (s : Sys)
    (hw : s.state = WAIT)
    (hstart : (inp.port0 % 256) &&& cfg.START_BUTTON ≠ 0) :
    ((inp.port0 % 256) &&& cfg.SWITCH_CHARGE_AND_BALANCE ≠ 0 →
        (BatteryController_Task_step cfg inp s).state = CHARGE_BALANCE) ∧
    ((inp.port0 % 256) &&& cfg.SWITCH_CHARGE_AND_BALANCE = 0 →
      (inp.port0 % 256) &&& cfg.SWITCH_CHARGE ≠ 0 →
        (BatteryController_Task_step cfg inp s).state = CHARGE) ∧
    ((inp.port0 % 256) &&& cfg.SWITCH_CHARGE_AND_BALANCE = 0 →
      (inp.port0 % 256) &&& cfg.SWITCH_CHARGE = 0 →
        (BatteryController_Task_step cfg inp s).state = BALANCE) := by
  rw [step_of_WAIT cfg inp s hw]
  unfold waitBlock
  dsimp only
  refine ⟨fun hcb => ?_, fun hcb hc => ?_, fun hcb hc => ?_⟩
  · rw [if_pos hstart, if_pos hcb]
  · rw [if_pos hstart, if_neg (not_not.mpr hcb), if_pos hc]
  · rw [if_pos hstart, if_neg (not_not.mpr hcb), if_neg (not_not.mpr hc)]

/-- C3 at a concrete pack: port-0 byte 0b0111 (start, both mode bits) gives
CHARGE_BALANCE. -/
theorem C3_operator_start_witness :
    (samplePack WAIT [3800, 3780]).state = WAIT ∧
    ((7 : Nat) % 256) &&& (sampleConfig 4100 4200).START_BUTTON ≠ 0 ∧
    (BatteryController_Task_step (sampleConfig 4100 4200) ⟨7, 0⟩
        (samplePack WAIT [3800, 3780])).state = CHARGE_BALANCE :=
  ⟨rfl, by decide,
    (C3_operator_start (sampleConfig 4100 4200) ⟨7, 0⟩ (samplePack WAIT [3800, 3780])
      rfl (by decide)).1 (by decide)⟩

/-! ## The balancing predicate -/

/-- C4. Gate: `batteryController_NeedsBalanced` returns FALSE whenever the balance
flag of the cell is TRUE or its relaxation timer has not elapsed, for every cell
voltage and every pack minimum. -/
theorem C4_gate_closed (minCellVolt : Int) (cell : cell_t)
    (h : cell.balance = true ∨ Timer_HasElapsed cell.relaxationTimer = false) :
    batteryController_NeedsBalanced minCellVolt cell = false := by
  unfold batteryController_NeedsBalanced
  rcases h with h | h <;> simp [h]

/-- C4 at a cell 1000 mV above the pack minimum whose balance flag is TRUE. -/
theorem C4_gate_closed_witness :
    batteryController_NeedsBalanced 3000
      { voltage := 4000, balance := true, relaxationTimer := elapsedTimer } = false :=
  C4_gate_closed 3000 { voltage := 4000, balance := true, relaxationTimer := elapsedTimer }
    (Or.inl rfl)

/-- C5. A cell with balance = FALSE whose voltage exceeds the pack minimum by more
than BALANCE_ON_VOLT_TOL is selected when its relaxation timer has elapsed, and
the same cell with a relaxation timer that has not elapsed is not selected. -/
theorem C5_selected_above_on_tolerance (minCellVolt v : Int) (t u : timer_t)
    (hv : v - minCellVolt > BALANCE_ON_VOLT_TOL)
    (ht : Timer_HasElapsed t = true) (hu : Timer_HasElapsed u = false) :
    batteryController_NeedsBalanced minCellVolt
        { voltage := v, balance := false, relaxationTimer := t } = true ∧
    batteryController_NeedsBalanced minCellVolt
        { voltage := v, balance := false, relaxationTimer := u } = false := by
  unfold batteryController_NeedsBalanced
  unfold BALANCE_ON_VOLT_TOL at hv
  constructor
  · simp only [ht, beq_self_eq_true, Bool.and_self, if_true, decide_eq_true_eq,
      BALANCE_OFF_VOLT_TOL]
    omega
  · simp [hu]

/-- C5 at the first cell of the scenario of the specification: 3800 mV against a
pack minimum of 3770 mV. -/
theorem C5_selected_above_on_tolerance_witness :
    (3800 : Int) - 3770 > BALANCE_ON_VOLT_TOL ∧
    batteryController_NeedsBalanced 3770
        { voltage := 3800, balance := false, relaxationTimer := elapsedTimer } = true ∧
    batteryController_NeedsBalanced 3770
        { voltage := 3800, balance := false, relaxationTimer := runningTimer } = false :=
  ⟨by decide, C5_selected_above_on_tolerance 3770 3800 elapsedTimer runningTimer
    (by decide) rfl rfl⟩

/-- C6 (the code evaluated where the claim fails). A resting cell at 3780 mV, 10 mV
above the pack minimum 3770 mV and so within BALANCE_ON_VOLT_TOL, is selected; in
the scenario [3800, 3780, 3770] mV, all timers elapsed and all flags FALSE, one
BALANCE step sets the balance flag of all three cells, not of the first only. -/
theorem C6_resting_cell_within_on_tolerance_is_selected :
    ¬ ((3780 : Int) - 3770 > BALANCE_ON_VOLT_TOL) ∧
    batteryController_NeedsBalanced 3770 (restingCell 3780) = true ∧
    packMinimum (samplePack BALANCE [3800, 3780, 3770]).cells = 3770 ∧
    (BatteryController_Task_step (sampleConfig 4100 4200) ⟨0, 0⟩
        (samplePack BALANCE [3800, 3780, 3770])).cells.map cell_t.balance
      = [true, true, true] := by
  decide

/-- C7 (the code evaluated where the claim fails). A cell with balance = TRUE at
3800 mV, 30 mV above the pack minimum 3770 mV and so not within
BALANCE_OFF_VOLT_TOL of it, is not selected: the predicate returns FALSE and one
BALANCE step clears its balance flag. -/
theorem C7_balancing_cell_is_deselected :
    (3800 : Int) - 3770 > BALANCE_OFF_VOLT_TOL ∧
    batteryController_NeedsBalanced 3770 (balancingCell 3800) = false ∧
    packMinimum [balancingCell 3800, restingCell 3770] = 3770 ∧
    (BatteryController_Task_step (sampleConfig 4100 4200) ⟨0, 0⟩
        (packOf BALANCE [balancingCell 3800, restingCell 3770])).cells.map cell_t.balance
      = [false, true] := by
  decide

/-! ## Runs -/

/-- C8 (the code evaluated where the claim fails). No run of the task, whatever the
voltages and whatever the timers report, takes the pack from BALANCE to another
state, nor from CHARGE_BALANCE to CHARGE or WAIT. In particular, with one cell
whose relaxation timer has not elapsed (predicate false in every step), a step in
BALANCE that starts the balance-done timer, the timer reported elapsed, and a
second step, the pack is still in BALANCE. -/
theorem C8_no_balancing_complete_transition :
    (∀ (cfg : Config) (evs : List Event) (s : Sys),
      (run cfg evs { s with state := BALANCE }).state = BALANCE) ∧
    (∀ (cfg : Config) (evs : List Event) (s : Sys),
      (run cfg evs { s with state := CHARGE_BALANCE }).state ≠ CHARGE ∧
      (run cfg evs { s with state := CHARGE_BALANCE }).state ≠ WAIT) ∧
    (BatteryController_Task_step (sampleConfig 4100 4200) ⟨0, 0⟩
        (packOf BALANCE [relaxingCell 3800])).balanceDoneTimer
      = { active := true, elapsed := false, duration := BALANCE_RELAXATION_TIME } ∧
    (run (sampleConfig 4100 4200)
        [Event.task ⟨0, 0⟩, Event.telemetry [] balanceDoneElapsed, Event.task ⟨0, 0⟩]
        (packOf BALANCE [relaxingCell 3800]))
      = { state := BALANCE, cells := [relaxingCell 3800],
          balanceDoneTimer := balanceDoneElapsed, relayTx := [] } := by
  refine ⟨fun cfg evs s => run_state_of_BALANCE cfg evs _ rfl, fun cfg evs s => ?_,
    by decide, by decide⟩
  rcases run_state_of_CHARGE_BALANCE cfg evs { s with state := CHARGE_BALANCE } rfl
    with h | h | h <;> rw [h] <;> exact ⟨by decide, by decide⟩

/-- C9. ERROR is a terminal sink: a step started in ERROR changes nothing (pack
state, cells with their balance flags, balance-done timer, relay output), so a
sequence of steps leaves the whole system as it was, and no run, with any
telemetry between the steps, leaves ERROR. -/
theorem C9_error_is_terminal (cfg : Config) (s : Sys) (h : s.state = ERROR) :
    (∀ inp : Input, BatteryController_Task_step cfg inp s = s) ∧
    (∀ inps : List Input, run cfg (inps.map Event.task) s = s) ∧
    (∀ evs : List Event, (run cfg evs s).state = ERROR) := by
  refine ⟨fun inp => step_of_ERROR cfg inp s h, fun inps => ?_,
    fun evs => run_state_of_ERROR cfg evs s h⟩
  induction inps with
  | nil => rfl
  | cons inp inps ih =>
    rw [List.map_cons, run_cons]
    show run cfg (inps.map Event.task) (BatteryController_Task_step cfg inp s) = s
    rw [step_of_ERROR cfg inp s h]
    exact ih

/-- C9 at a pack in ERROR with one cell balancing and the start button pressed. -/
theorem C9_error_is_terminal_witness :
    (packOf ERROR [balancingCell 4250, restingCell 3700]).state = ERROR ∧
    BatteryController_Task_step (sampleConfig 4100 4200) ⟨7, 0⟩
        (packOf ERROR [balancingCell 4250, restingCell 3700])
      = packOf ERROR [balancingCell 4250, restingCell 3700] :=
  ⟨rfl, (C9_error_is_terminal (sampleConfig 4100 4200)
    (packOf ERROR [balancingCell 4250, restingCell 3700]) rfl).1 ⟨7, 0⟩⟩

/-- C10 (counterexample). From WAIT with all balance flags FALSE, cells at
[4250, 3700] mV, limits 4100 and 4200 mV: a step with the start button and the
charge-and-balance switch enters CHARGE_BALANCE; the next step finds cell 0 at the
critical limit and ends in ERROR, and its balance loop has set both balance flags.
The state is then neither BALANCE nor CHARGE_BALANCE while flags are TRUE. -/
theorem C10_flags_set_in_error :
    (samplePack WAIT [4250, 3700]).state = WAIT ∧
    (∀ c ∈ (samplePack WAIT [4250, 3700]).cells, c.balance = false) ∧
    (run (sampleConfig 4100 4200) [Event.task ⟨3, 0⟩]
        (samplePack WAIT [4250, 3700])).state = CHARGE_BALANCE ∧
    (run (sampleConfig 4100 4200) [Event.task ⟨3, 0⟩, Event.task ⟨0, 0⟩]
        (samplePack WAIT [4250, 3700])).state = ERROR ∧
    (run (sampleConfig 4100 4200) [Event.task ⟨3, 0⟩, Event.task ⟨0, 0⟩]
        (samplePack WAIT [4250, 3700])).cells.map cell_t.balance = [true, true] := by
  decide

/-- C10 (amended). In every state reachable from WAIT with all balance flags
FALSE, by task steps with any telemetry in between, a cell whose balance flag is
TRUE implies that the pack state is BALANCE, CHARGE_BALANCE or ERROR; that is, in
WAIT and in CHARGE every balance flag is FALSE. -/
theorem C10_flags_only_in_balancing_or_error (cfg : Config) (evs : List Event) (s0 : Sys)
    (_h0 : s0.state = WAIT) (hf : ∀ c ∈ s0.cells, c.balance = false) :
    (∃ c ∈ (run cfg evs s0).cells, c.balance = true) →
      (run cfg evs s0).state = BALANCE ∨ (run cfg evs s0).state = CHARGE_BALANCE ∨
      (run cfg evs s0).state = ERROR := by
  have hI := run_invariant cfg
    (fun x => (x.state = WAIT ∨ x.state = CHARGE) → ∀ c ∈ x.cells, c.balance = false)
    (fun x e hx => flags_clear_outside_balancing_step cfg x e hx) evs s0 (fun _ => hf)
  rintro ⟨c, hc, hb⟩
  cases hs : (run cfg evs s0).state with
  | CHARGE => rw [hI (Or.inr hs) c hc] at hb; cases hb
  | WAIT => rw [hI (Or.inl hs) c hc] at hb; cases hb
  | BALANCE => exact Or.inl rfl
  | CHARGE_BALANCE => exact Or.inr (Or.inl rfl)
  | ERROR => exact Or.inr (Or.inr rfl)

/-- C10 (amended) at a run that enters BALANCE and selects both cells. -/
theorem C10_flags_only_in_balancing_or_error_witness :
    (samplePack WAIT [3800, 3700]).state = WAIT ∧
    (∀ c ∈ (samplePack WAIT [3800, 3700]).cells, c.balance = false) ∧
    (∃ c ∈ (run (sampleConfig 4100 4200) [Event.task ⟨1, 0⟩, Event.task ⟨0, 0⟩]
        (samplePack WAIT [3800, 3700])).cells, c.balance = true) ∧
    ((run (sampleConfig 4100 4200) [Event.task ⟨1, 0⟩, Event.task ⟨0, 0⟩]
        (samplePack WAIT [3800, 3700])).state = BALANCE ∨
     (run (sampleConfig 4100 4200) [Event.task ⟨1, 0⟩, Event.task ⟨0, 0⟩]
        (samplePack WAIT [3800, 3700])).state = CHARGE_BALANCE ∨
     (run (sampleConfig 4100 4200) [Event.task ⟨1, 0⟩, Event.task ⟨0, 0⟩]
        (samplePack WAIT [3800, 3700])).state = ERROR) :=
  ⟨rfl, by decide, by decide,
    C10_flags_only_in_balancing_or_error (sampleConfig 4100 4200)
      [Event.task ⟨1, 0⟩, Event.task ⟨0, 0⟩] (samplePack WAIT [3800, 3700]) rfl (by decide)
      (by decide)⟩

/-! ## The balance block -/

/-- C11. Balance-done timer bookkeeping in a step started in BALANCE or
CHARGE_BALANCE, the pack minimum being a function of the voltages: (a) if the
predicate is false for every cell and the timer is not active, the timer is
started with BALANCE_RELAXATION_TIME (5000 ms); (b) if it is false for every cell
and the timer is active, the timer is left as it is; (c) if it is true for some
cell, the timer is stopped, whatever its state. -/
theorem C11_balance_done_timer (cfg : Config) (inp : Input) (s : Sys)
    (hs : s.state = BALANCE ∨ s.state = CHARGE_BALANCE) (hmin : MinFromVoltages cfg) :
    ((∀ c ∈ s.cells,
        batteryController_NeedsBalanced (cfg.CellStatus_MinCellVolt s.cells) c = false) →
      Timer_IsActive s.balanceDoneTimer = false →
      (BatteryController_Task_step cfg inp s).balanceDoneTimer
        = Timer_Start s.balanceDoneTimer BALANCE_RELAXATION_TIME ∧
      BALANCE_RELAXATION_TIME = 5000) ∧
    ((∀ c ∈ s.cells,
        batteryController_NeedsBalanced (cfg.CellStatus_MinCellVolt s.cells) c = false) →
      Timer_IsActive s.balanceDoneTimer = true →
      (BatteryController_Task_step cfg inp s).balanceDoneTimer = s.balanceDoneTimer) ∧
    ((∃ c ∈ s.cells,
        batteryController_NeedsBalanced (cfg.CellStatus_MinCellVolt s.cells) c = true) →
      (BatteryController_Task_step cfg inp s).balanceDoneTimer
        = Timer_Stop s.balanceDoneTimer) := by
  rw [(step_balancing cfg inp s hs).2, balanceBlock_timer, balanceBlock_cells_eq_map cfg s hmin]
  have hall : ∀ (h : ∀ c ∈ s.cells,
      batteryController_NeedsBalanced (cfg.CellStatus_MinCellVolt s.cells) c = false),
      (s.cells.map (fun c => { c with
          balance :=
            batteryController_NeedsBalanced (cfg.CellStatus_MinCellVolt s.cells) c })).all
        (fun c => !c.balance) = true := by
    intro h
    rw [List.all_eq_true]
    intro d hd
    obtain ⟨c, hc, rfl⟩ := List.mem_map.mp hd
    simp [h c hc]
  refine ⟨fun h ha => ?_, fun h ha => ?_, fun h => ?_⟩
  · rw [hall h, if_pos rfl, ha]
    exact ⟨rfl, rfl⟩
  · rw [hall h, if_pos rfl, ha]
    rfl
  · obtain ⟨c, hc, hb⟩ := h
    have hne : (s.cells.map (fun c => { c with
          balance :=
            batteryController_NeedsBalanced (cfg.CellStatus_MinCellVolt s.cells) c })).all
        (fun c => !c.balance) = false := by
      rw [List.all_eq_false]
      exact ⟨_, List.mem_map.mpr ⟨c, hc, rfl⟩, by simp [hb]⟩
    rw [hne]
    rfl

/-- C11 at a pack in BALANCE whose only cell is relaxing, balance-done timer not
active: the step starts the timer with 5000 ms. -/
theorem C11_balance_done_timer_witness :
    ((packOf BALANCE [relaxingCell 3800]).state = BALANCE ∨
      (packOf BALANCE [relaxingCell 3800]).state = CHARGE_BALANCE) ∧
    (∀ c ∈ (packOf BALANCE [relaxingCell 3800]).cells,
      batteryController_NeedsBalanced
        ((sampleConfig 4100 4200).CellStatus_MinCellVolt
          (packOf BALANCE [relaxingCell 3800]).cells) c = false) ∧
    Timer_IsActive (packOf BALANCE [relaxingCell 3800]).balanceDoneTimer = false ∧
    (BatteryController_Task_step (sampleConfig 4100 4200) ⟨0, 0⟩
        (packOf BALANCE [relaxingCell 3800])).balanceDoneTimer
      = { active := true, elapsed := false, duration := 5000 } :=
  ⟨Or.inl rfl, by decide, rfl,
    ((C11_balance_done_timer (sampleConfig 4100 4200) ⟨0, 0⟩
      (packOf BALANCE [relaxingCell 3800]) (Or.inl rfl)
      (sampleConfig_minFromVoltages 4100 4200)).1 (by decide) rfl).1⟩

/-- C12. Balance flags follow the predicate: after a step started in BALANCE or
CHARGE_BALANCE, the pack minimum being a function of the voltages, the cell at
every index is the cell before the step with its balance flag replaced by
`batteryController_NeedsBalanced` on that cell as it was before the step, with
the minimum of the array before the step; a cell for which the predicate is false
has balance = FALSE, the number of cells is the same, and no voltage is changed. -/
theorem C12_flags_follow_predicate (cfg : Config) (inp : Input) (s : Sys)
    (hs : s.state = BALANCE ∨ s.state = CHARGE_BALANCE) (hmin : MinFromVoltages cfg) :
    (∀ i : Nat, (BatteryController_Task_step cfg inp s).cells[i]?
      = (s.cells[i]?).map (fun c => { c with
          balance :=
            batteryController_NeedsBalanced (cfg.CellStatus_MinCellVolt s.cells) c })) ∧
    (∀ (i : Nat) (c : cell_t), s.cells[i]? = some c →
      batteryController_NeedsBalanced (cfg.CellStatus_MinCellVolt s.cells) c = false →
      ((BatteryController_Task_step cfg inp s).cells[i]?).map cell_t.balance = some false) ∧
    (BatteryController_Task_step cfg inp s).cells.length = s.cells.length ∧
    (BatteryController_Task_step cfg inp s).cells.map cell_t.voltage
      = s.cells.map cell_t.voltage := by
  have hc : (BatteryController_Task_step cfg inp s).cells
      = s.cells.map (fun c => { c with
          balance :=
            batteryController_NeedsBalanced (cfg.CellStatus_MinCellVolt s.cells) c }) := by
    rw [(step_balancing cfg inp s hs).1, balanceBlock_cells_eq_map cfg s hmin]
  refine ⟨fun i => ?_, fun i c hi hb => ?_, ?_, (step_timer_voltage cfg inp s).2⟩
  · rw [hc, List.getElem?_map]
  · rw [hc, List.getElem?_map, hi]
    simp [hb]
  · rw [hc, List.length_map]

/-- C12 at the pack [balancing 3800 mV, resting 3770 mV] in BALANCE: the flags
after the step are [FALSE, TRUE]. -/
theorem C12_flags_follow_predicate_witness :
    ((packOf BALANCE [balancingCell 3800, restingCell 3770]).state = BALANCE ∨
      (packOf BALANCE [balancingCell 3800, restingCell 3770]).state = CHARGE_BALANCE) ∧
    (BatteryController_Task_step (sampleConfig 4100 4200) ⟨0, 0⟩
        (packOf BALANCE [balancingCell 3800, restingCell 3770])).cells[0]?
      = ((packOf BALANCE [balancingCell 3800, restingCell 3770]).cells[0]?).map
          (fun c => { c with
            balance := batteryController_NeedsBalanced
              ((sampleConfig 4100 4200).CellStatus_MinCellVolt
                (packOf BALANCE [balancingCell 3800, restingCell 3770]).cells) c }) :=
  ⟨Or.inl rfl,
    (C12_flags_follow_predicate (sampleConfig 4100 4200) ⟨0, 0⟩
      (packOf BALANCE [balancingCell 3800, restingCell 3770]) (Or.inl rfl)
      (sampleConfig_minFromVoltages 4100 4200)).1 0⟩

/-- C13 (the code evaluated where the claim fails). No step writes a relaxation
timer. In BALANCE with cells [balancing 3800 mV, resting 3770 mV], relaxation
timers elapsed: the step takes the balance flag of cell 0 from TRUE to FALSE and
leaves its relaxation timer as it was, still reporting elapsed, and the next step
selects cell 0 again. -/
theorem C13_relaxation_timer_not_restarted :
    (∀ (cfg : Config) (inp : Input) (s : Sys),
      (BatteryController_Task_step cfg inp s).cells.map cell_t.relaxationTimer
        = s.cells.map cell_t.relaxationTimer) ∧
    (BatteryController_Task_step (sampleConfig 4100 4200) ⟨0, 0⟩
        (packOf BALANCE [balancingCell 3800, restingCell 3770])).cells
      = [{ voltage := 3800, balance := false, relaxationTimer := elapsedTimer },
         { voltage := 3770, balance := true, relaxationTimer := elapsedTimer }] ∧
    Timer_HasElapsed elapsedTimer = true ∧
    (run (sampleConfig 4100 4200) [Event.task ⟨0, 0⟩, Event.task ⟨0, 0⟩]
        (packOf BALANCE [balancingCell 3800, restingCell 3770])).cells.map cell_t.balance
      = [true, false] := by
  refine ⟨fun cfg inp s => (step_timer_voltage cfg inp s).1, by decide, rfl, by decide⟩

/-- C14 (the code evaluated where the claim fails). A resting cell at 2900 mV,
below BALANCE_MIN_VOLT_THRESH, with pack minimum 2850 mV is selected, and a
BALANCE step on cells [2900, 2850] mV sets both balance flags. -/
theorem C14_cell_below_min_threshold_selected :
    (2900 : Int) < BALANCE_MIN_VOLT_THRESH ∧
    batteryController_NeedsBalanced 2850 (restingCell 2900) = true ∧
    packMinimum (samplePack BALANCE [2900, 2850]).cells = 2850 ∧
    (BatteryController_Task_step (sampleConfig 4100 4200) ⟨0, 0⟩
        (samplePack BALANCE [2900, 2850])).cells.map cell_t.balance = [true, true] := by
  decide

/-- C15 (the code evaluated where the claim fails). In WAIT with cells
[4080, 3900] mV and MAX_CELL_VOLTAGE = 4100, cell 0 is above
MAX_CELL_VOLTAGE - CHARGE_ON_VOLT_TOL = 4050 mV; the start button with the charge
switch still takes the pack to CHARGE, and with the charge-and-balance switch to
CHARGE_BALANCE. -/
theorem C15_charge_enabled_above_hysteresis :
    (4080 : Int) > (sampleConfig 4100 4200).MAX_CELL_VOLTAGE - CHARGE_ON_VOLT_TOL ∧
    (BatteryController_Task_step (sampleConfig 4100 4200) ⟨5, 0⟩
        (samplePack WAIT [4080, 3900])).state = CHARGE ∧
    (BatteryController_Task_step (sampleConfig 4100 4200) ⟨3, 0⟩
        (samplePack WAIT [4080, 3900])).state = CHARGE_BALANCE := by
  decide

/-- C16 (counterexample). In CHARGE_BALANCE with resting cells [4250, 3700] mV,
relaxation timers elapsed, limits 4100 and 4200 mV: the step finds cell 0 at the
critical limit and ends in ERROR, and its balance loop selects both cells. The
next step starts in ERROR and writes no flag, so with unchanged voltages and
elapsed timers the cells selected in one step are still selected after the next
step: the decision is not reversed. -/
theorem C16_selected_cells_stay_selected_in_error :
    (samplePack CHARGE_BALANCE [4250, 3700]).cells.map cell_t.balance = [false, false] ∧
    (BatteryController_Task_step (sampleConfig 4100 4200) ⟨0, 0⟩
        (samplePack CHARGE_BALANCE [4250, 3700])).state = ERROR ∧
    (BatteryController_Task_step (sampleConfig 4100 4200) ⟨0, 0⟩
        (samplePack CHARGE_BALANCE [4250, 3700])).cells.map cell_t.balance = [true, true] ∧
    (BatteryController_Task_step (sampleConfig 4100 4200) ⟨0, 0⟩
        (BatteryController_Task_step (sampleConfig 4100 4200) ⟨0, 0⟩
          (samplePack CHARGE_BALANCE [4250, 3700]))).cells.map cell_t.balance
      = [true, true] := by
  decide

/-- C16 (amended). In a step started in BALANCE or CHARGE_BALANCE, every cell whose
balance flag is TRUE before the step has balance = FALSE after it, for every
voltage, pack-minimum query and timer state; so a cell selected by one step is
deselected by the next step, whenever that next step also starts in BALANCE or
CHARGE_BALANCE. -/
theorem C16_set_flag_is_cleared (cfg : Config) (inp : Input) (s : Sys)
    (hs : s.state = BALANCE ∨ s.state = CHARGE_BALANCE) :
    (∀ (i : Nat) (c : cell_t), s.cells[i]? = some c → c.balance = true →
      ∃ d, (BatteryController_Task_step cfg inp s).cells[i]? = some d ∧
        d.balance = false) ∧
    (∀ inp2 : Input,
      ((BatteryController_Task_step cfg inp s).state = BALANCE ∨
        (BatteryController_Task_step cfg inp s).state = CHARGE_BALANCE) →
      ∀ (i : Nat) (d : cell_t),
        (BatteryController_Task_step cfg inp s).cells[i]? = some d → d.balance = true →
        ∃ e, (BatteryController_Task_step cfg inp2
            (BatteryController_Task_step cfg inp s)).cells[i]? = some e ∧
          e.balance = false) :=
  ⟨step_clears_set_flags cfg inp s hs,
    fun inp2 h1 => step_clears_set_flags cfg inp2 (BatteryController_Task_step cfg inp s) h1⟩

/-- C16 (amended) at the pack [balancing 3800 mV, resting 3770 mV] in BALANCE:
cell 0 has its flag cleared by the step. -/
theorem C16_set_flag_is_cleared_witness :
    ((packOf BALANCE [balancingCell 3800, restingCell 3770]).state = BALANCE ∨
      (packOf BALANCE [balancingCell 3800, restingCell 3770]).state = CHARGE_BALANCE) ∧
    (packOf BALANCE [balancingCell 3800, restingCell 3770]).cells[0]?
      = some (balancingCell 3800) ∧
    (balancingCell 3800).balance = true ∧
    (∃ d, (BatteryController_Task_step (sampleConfig 4100 4200) ⟨0, 0⟩
        (packOf BALANCE [balancingCell 3800, restingCell 3770])).cells[0]? = some d ∧
      d.balance = false) :=
  ⟨Or.inl rfl, rfl, rfl,
    (C16_set_flag_is_cleared (sampleConfig 4100 4200) ⟨0, 0⟩
      (packOf BALANCE [balancingCell 3800, restingCell 3770]) (Or.inl rfl)).1 0
      (balancingCell 3800) rfl rfl⟩

/-- C17. When `CellStatus_MinCellVolt` returns the minimum of the voltages of the
pack, the predicate is TRUE for every cell of the pack with balance = FALSE and
elapsed relaxation timer, the lowest cell included; hence a step started in BALANCE
(or CHARGE_BALANCE) with all flags FALSE and all relaxation timers elapsed sets
the balance flag of every cell. -/
theorem C17_voltage_test_vacuous (cfg : Config)
    (hmin : ∀ xs : List cell_t, cfg.CellStatus_MinCellVolt xs = packMinimum xs) :
    (∀ (cells : List cell_t) (c : cell_t), c ∈ cells → c.balance = false →
      Timer_HasElapsed c.relaxationTimer = true →
      batteryController_NeedsBalanced (cfg.CellStatus_MinCellVolt cells) c = true) ∧
    (∀ (inp : Input) (s : Sys), (s.state = BALANCE ∨ s.state = CHARGE_BALANCE) →
      (∀ c ∈ s.cells, c.balance = false ∧ Timer_HasElapsed c.relaxationTimer = true) →
      (BatteryController_Task_step cfg inp s).cells
        = s.cells.map (fun c => { c with balance := true })) := by
  have h1 : ∀ (cells : List cell_t) (c : cell_t), c ∈ cells → c.balance = false →
      Timer_HasElapsed c.relaxationTimer = true →
      batteryController_NeedsBalanced (cfg.CellStatus_MinCellVolt cells) c = true := by
    intro cells c hc hb ht
    rw [hmin]
    exact needsBalanced_of_min_le _ c hb ht (packMinimum_le cells c hc)
  refine ⟨h1, fun inp s hs hall => ?_⟩
  rw [(step_balancing cfg inp s hs).1]
  apply forall₂_eq_map
  refine (forall₂_mem_left (balanceBlock_writes cfg s).1).imp ?_
  rintro c d ⟨hc, arr, hca, _, hd⟩
  rw [hd, h1 arr c hca (hall c hc).1 (hall c hc).2]

/-- C17 at the scenario [3800, 3780, 3770] mV, all cells resting: the lowest cell
is selected too, and after one BALANCE step every balance flag is TRUE. -/
theorem C17_voltage_test_vacuous_witness :
    (∀ xs : List cell_t, (sampleConfig 4100 4200).CellStatus_MinCellVolt xs = packMinimum xs) ∧
    batteryController_NeedsBalanced
      ((sampleConfig 4100 4200).CellStatus_MinCellVolt
        (samplePack BALANCE [3800, 3780, 3770]).cells) (restingCell 3770) = true ∧
    (BatteryController_Task_step (sampleConfig 4100 4200) ⟨0, 0⟩
        (samplePack BALANCE [3800, 3780, 3770])).cells
      = (samplePack BALANCE [3800, 3780, 3770]).cells.map
          (fun c => { c with balance := true }) :=
  ⟨fun _ => rfl,
    (C17_voltage_test_vacuous (sampleConfig 4100 4200) (fun _ => rfl)).1
      (samplePack BALANCE [3800, 3780, 3770]).cells (restingCell 3770) (by decide) rfl rfl,
    (C17_voltage_test_vacuous (sampleConfig 4100 4200) (fun _ => rfl)).2 ⟨0, 0⟩
      (samplePack BALANCE [3800, 3780, 3770]) (Or.inl rfl) (by decide)⟩

/-! ## The shape of one step -/

/-- C18. With MAX_CELL_VOLTAGE at most MAX_CELL_CRITICAL_VOLTAGE, in a step started
in CHARGE or CHARGE_BALANCE: if no cell is at or above MAX_CELL_VOLTAGE the pack
state is unchanged; otherwise, for the last cell `c` at or above MAX_CELL_VOLTAGE
(the cells are `pre ++ c :: post` with every cell of `post` below it), the state
after the step is ERROR if `c` is at or above the critical limit, and else WAIT
from CHARGE and BALANCE from CHARGE_BALANCE, whatever `pre` holds. -/
theorem C18_last_offending_cell_decides (cfg : Config) (inp : Input) (s : Sys)
    (hle : cfg.MAX_CELL_VOLTAGE ≤ cfg.MAX_CELL_CRITICAL_VOLTAGE)
    (hs : s.state = CHARGE ∨ s.state = CHARGE_BALANCE) :
    ((∀ c ∈ s.cells, c.voltage < cfg.MAX_CELL_VOLTAGE) →
      (BatteryController_Task_step cfg inp s).state = s.state) ∧
    (∀ (pre post : List cell_t) (c : cell_t), s.cells = pre ++ c :: post →
      c.voltage ≥ cfg.MAX_CELL_VOLTAGE →
      (∀ d ∈ post, d.voltage < cfg.MAX_CELL_VOLTAGE) →
      (c.voltage ≥ cfg.MAX_CELL_CRITICAL_VOLTAGE →
        (BatteryController_Task_step cfg inp s).state = ERROR) ∧
      (c.voltage < cfg.MAX_CELL_CRITICAL_VOLTAGE →
        (s.state = CHARGE → (BatteryController_Task_step cfg inp s).state = WAIT) ∧
        (s.state = CHARGE_BALANCE →
          (BatteryController_Task_step cfg inp s).state = BALANCE))) := by
  rw [step_state_charging cfg inp s hs]
  constructor
  · intro h
    exact overVoltageScan_below cfg s.state s.cells s.state h
      (fun c hc => lt_of_lt_of_le (h c hc) hle)
  · intro pre post c hcells hc hpost
    rw [hcells, overVoltageScan_last cfg s.state s.state hle pre post c hc hpost]
    refine ⟨fun hcrit => if_pos hcrit, fun hlt => ?_⟩
    rw [if_neg (not_le.mpr hlt)]
    exact ⟨fun h => by rw [h]; rfl, fun h => by rw [h]; rfl⟩

/-- C18 at cells [3950, 4000, 3990] mV in CHARGE with limits 3980 and 4000 mV: the
last cell at the soft limit is cell 2, below the critical limit, so the step ends
in WAIT although cell 1 is at the critical limit. -/
theorem C18_last_offending_cell_decides_witness :
    (sampleConfig 3980 4000).MAX_CELL_VOLTAGE
      ≤ (sampleConfig 3980 4000).MAX_CELL_CRITICAL_VOLTAGE ∧
    (samplePack CHARGE [3950, 4000, 3990]).cells
      = [restingCell 3950, restingCell 4000] ++ restingCell 3990 :: [] ∧
    (restingCell 3990).voltage ≥ (sampleConfig 3980 4000).MAX_CELL_VOLTAGE ∧
    (restingCell 3990).voltage < (sampleConfig 3980 4000).MAX_CELL_CRITICAL_VOLTAGE ∧
    (BatteryController_Task_step (sampleConfig 3980 4000) ⟨0, 0⟩
        (samplePack CHARGE [3950, 4000, 3990])).state = WAIT :=
  ⟨by decide, rfl, by decide, by decide,
    ((((C18_last_offending_cell_decides (sampleConfig 3980 4000) ⟨0, 0⟩
      (samplePack CHARGE [3950, 4000, 3990]) (by decide) (Or.inl rfl)).2
      [restingCell 3950, restingCell 4000] [] (restingCell 3990) rfl (by decide)
      (fun d hd => absurd hd (List.not_mem_nil d))).2 (by decide)).1 rfl)⟩

/-- C19. Transition relation of one step: the pack state is left as it was or
moves along one of CHARGE to WAIT, CHARGE to ERROR, CHARGE_BALANCE to BALANCE,
CHARGE_BALANCE to ERROR, WAIT to CHARGE, WAIT to CHARGE_BALANCE, WAIT to BALANCE;
a step started in BALANCE ends in BALANCE; a step started in WAIT with the
START_BUTTON bit clear ends in WAIT; and a step not started in WAIT does not
depend on the port inputs, so a step that enters WAIT does not act on the start
button. -/
theorem C19_transition_relation (cfg : Config) (inp : Input) (s : Sys) :
    ((BatteryController_Task_step cfg inp s).state = s.state ∨
      (s.state = CHARGE ∧ (BatteryController_Task_step cfg inp s).state = WAIT) ∨
      (s.state = CHARGE ∧ (BatteryController_Task_step cfg inp s).state = ERROR) ∨
      (s.state = CHARGE_BALANCE ∧ (BatteryController_Task_step cfg inp s).state = BALANCE) ∨
      (s.state = CHARGE_BALANCE ∧ (BatteryController_Task_step cfg inp s).state = ERROR) ∨
      (s.state = WAIT ∧ (BatteryController_Task_step cfg inp s).state = CHARGE) ∨
      (s.state = WAIT ∧ (BatteryController_Task_step cfg inp s).state = CHARGE_BALANCE) ∨
      (s.state = WAIT ∧ (BatteryController_Task_step cfg inp s).state = BALANCE)) ∧
    (s.state = BALANCE → (BatteryController_Task_step cfg inp s).state = BALANCE) ∧
    (s.state = WAIT → (inp.port0 % 256) &&& cfg.START_BUTTON = 0 →
      (BatteryController_Task_step cfg inp s).state = WAIT) ∧
    (s.state ≠ WAIT → ∀ inp2 : Input,
      BatteryController_Task_step cfg inp2 s = BatteryController_Task_step cfg inp s) := by
  refine ⟨?_, fun h => step_state_of_BALANCE cfg inp s h, fun h hb => ?_,
    fun h inp2 => step_input_irrelevant cfg inp inp2 s h⟩
  · cases hs : s.state with
    | CHARGE =>
      rcases step_state_of_CHARGE cfg inp s hs with h | h | h
      · exact Or.inl h
      · exact Or.inr (Or.inl ⟨rfl, h⟩)
      · exact Or.inr (Or.inr (Or.inl ⟨rfl, h⟩))
    | BALANCE => exact Or.inl (step_state_of_BALANCE cfg inp s hs)
    | CHARGE_BALANCE =>
      rcases step_state_of_CHARGE_BALANCE cfg inp s hs with h | h | h
      · exact Or.inl h
      · exact Or.inr (Or.inr (Or.inr (Or.inl ⟨rfl, h⟩)))
      · exact Or.inr (Or.inr (Or.inr (Or.inr (Or.inl ⟨rfl, h⟩))))
    | WAIT =>
      rw [step_of_WAIT cfg inp s hs]
      rcases (waitBlock_state cfg inp s).1 with h | h | h | h
      · exact Or.inl (h.trans hs)
      · exact Or.inr (Or.inr (Or.inr (Or.inr (Or.inr (Or.inr (Or.inl ⟨rfl, h⟩))))))
      · exact Or.inr (Or.inr (Or.inr (Or.inr (Or.inr (Or.inl ⟨rfl, h⟩)))))
      · exact Or.inr (Or.inr (Or.inr (Or.inr (Or.inr (Or.inr (Or.inr ⟨rfl, h⟩))))))
    | ERROR =>
      rw [step_of_ERROR cfg inp s hs]
      exact Or.inl hs
  · rw [step_of_WAIT cfg inp s h, (waitBlock_state cfg inp s).2 hb, h]

end Claims

end BatteryBalancer
